import Mathlib

/-!
# The session layer of `platform/sessions/sessions.go`

A shallow embedding of the two components of the file:

* `MemcachedStore` (`Set`, `Get`, `Delete`), a session store over a memcache client;
* `SessionManager` (`NewSession`, `GetSession`, `DestroySession`), which carries the
  session identifier in a cookie.

The Go code is stateful only through its collaborators (the cache client, the response
writer, the clock, the UUID source).  Each of them is made explicit: the cache and the
store are threaded as a state `σ`, the response writer is the list of cookies set on it,
and the readings of `time.Now()` and `uuid.NewString()` are arguments.

Go numbers are `Int` with the ranges of their Go types as hypotheses where they matter;
`float64` values are the rationals they denote, with the IEEE 754 rounding made explicit.
-/

namespace Sessions

/-! ## Go values at the boundary of the package -/

/-- Go `error` values that the package returns; a nil error is `none : Option GoError`. -/
inductive GoError where
  /-- The error `memcache.ErrCacheMiss`: the key is absent or expired. -/
  | ErrCacheMiss
  /-- The error `http.ErrNoCookie`: the request has no cookie of the given name. -/
  | ErrNoCookie
  /-- An error returned by `encoding/gob`. -/
  | gob (msg : String)
  /-- Any other error of the cache client (transport, server). -/
  | backend (msg : String)
  deriving DecidableEq, Repr

/-- Values of types that `encoding/gob` registers by itself (a fragment). -/
inductive Basic where
  | bool (b : Bool)
  | int (n : Int)
  | string (s : String)
  | strings (xs : List String)
  deriving DecidableEq, Repr

/-- Dynamic values passed as `interface{}` (a fragment): the nil interface, a value of a
basic type, or a pointer `*interface{}` whose target holds a value of a basic type. -/
inductive GoValue where
  | nil
  | val (c : Basic)
  | ifacePtr (c : Basic)
  deriving DecidableEq, Repr

/-- A `context.Context`; the store ignores it. -/
structure Context where
  deriving DecidableEq, Repr

/-- A `time.Duration`: a count of nanoseconds (`int64`). -/
abbrev Duration := Int

/-- The constant `time.Second`. -/
def Second : Duration := 1000000000

/-- The constant `time.Hour`. -/
def Hour : Duration := 3600 * Second

/-- A `time.Time`: nanoseconds since the Unix epoch. -/
abbrev Time := Int

/-- The method `Time.Add`. -/
def Time.Add (t : Time) (d : Duration) : Time := t + d

/-! ## `float64` arithmetic

A finite `float64` is the rational it denotes.  Every operation computes the exact
result and rounds it to the nearest `float64`, ties to even.  Overflow to infinity is not
modelled: the only operands are an `int64` quotient and a fraction below one.
-/

namespace Float64

/-- Nearest integer, ties to the even one. -/
def roundTiesEven (q : ℚ) : ℤ :=
  let n := ⌊q⌋
  let r := q - n
  if r < 1 / 2 then n
  else if 1 / 2 < r then n + 1
  else if n % 2 = 0 then n else n + 1

/-- Binary exponent of `q`: the `e` with `2 ^ e ≤ |q| < 2 ^ (e + 1)`, and not below the
exponent `-1022` of the subnormal numbers. -/
def exponent (q : ℚ) : ℤ := max (Int.log 2 |q|) (-1022)

/-- Spacing of the `float64` values around `q` (53 significant bits). -/
def ulp (q : ℚ) : ℚ := (2 : ℚ) ^ (exponent q - 52)

/-- The `float64` nearest to `q`, ties to even. -/
def round (q : ℚ) : ℚ := roundTiesEven (q / ulp q) * ulp q

/-- The conversion `float64(n)` of an integer. -/
def ofInt (n : Int) : ℚ := round n

/-- The sum `x + y` of two `float64`. -/
def add (x y : ℚ) : ℚ := round (x + y)

/-- The quotient `x / y` of two `float64`. -/
def div (x y : ℚ) : ℚ := round (x / y)

/-- The integer part: the fraction is discarded (truncation towards zero). -/
def truncate (x : ℚ) : ℤ := if 0 ≤ x then ⌊x⌋ else ⌈x⌉

end Float64

/-- The method `Duration.Seconds`:
`sec := d / Second; nsec := d % Second; return float64(sec) + float64(nsec)/1e9`,
with the truncated division and remainder of Go. -/
def Duration.Seconds (d : Duration) : ℚ :=
  let sec := d.tdiv Second
  let nsec := d.tmod Second
  Float64.add (Float64.ofInt sec) (Float64.div (Float64.ofInt nsec) 1000000000)

/-- What the store takes from the Go runtime and libraries, as parameters:
`gobEncode value` is `gob.NewEncoder(&buf).Encode(value)` followed by `buf.Bytes()`;
`gobDecode bytes` is `gob.NewDecoder(bytes.NewReader(bytes)).Decode(&value)` for a
`var value interface{}`; `int32OutOfRange x` is the result of `int32(x)` for a `float64`
outside the range of `int32`, which Go leaves to the implementation.
The type `β` stands for `[]byte`: the store never looks into the bytes. -/
structure Runtime (β : Type) where
  gobEncode : GoValue → Except GoError β
  gobDecode : β → Except GoError GoValue
  int32OutOfRange : ℚ → Int

/-- The conversion `int32(x)` of a `float64`. -/
def Runtime.int32 {β : Type} (rt : Runtime β) (x : ℚ) : Int :=
  let t := Float64.truncate x
  if -2147483648 ≤ t ∧ t ≤ 2147483647 then t else rt.int32OutOfRange x

/-! ## The cache client -/

/-- A `memcache.Item`, with the fields the store sets. -/
structure Item (β : Type) where
  Key : String
  Value : β
  Expiration : Int
  deriving DecidableEq, Repr

/-- The methods of `*memcache.Client` that the store calls, over the state `σ` of
whatever answers them. -/
structure Client (β σ : Type) where
  Set : Item β → σ → Option GoError × σ
  Get : String → σ → Except GoError (Item β) × σ
  Delete : String → σ → Option GoError × σ

/-- The struct `MemcachedStore`. -/
structure MemcachedStore (β σ : Type) where
  Client : Client β σ
  TTL : Duration

/-- The cache key `sessionID + ":" + key` that `Set` and `Get` build. -/
@[reducible] def compositeKey (sessionID key : String) : String :=
  sessionID ++ ":" ++ key

variable {β σ : Type}

/-- The method `MemcachedStore.Set`. -/
def MemcachedStore.Set (rt : Runtime β) (m : MemcachedStore β σ) (_ctx : Context)
    (sessionID key : String) (value : GoValue) (st : σ) : Option GoError × σ :=
  match rt.gobEncode value with
  | .error err => (some err, st)
  | .ok buf =>
    m.Client.Set
      { Key := sessionID ++ ":" ++ key
        Value := buf
        Expiration := rt.int32 (Duration.Seconds m.TTL) } st

/-- The method `MemcachedStore.Get`: the pair `(value, err)` and the state after. -/
def MemcachedStore.Get (rt : Runtime β) (m : MemcachedStore β σ) (_ctx : Context)
    (sessionID key : String) (st : σ) : (GoValue × Option GoError) × σ :=
  match m.Client.Get (sessionID ++ ":" ++ key) st with
  | (.error err, st1) => ((GoValue.nil, some err), st1)
  | (.ok item, st1) =>
    match rt.gobDecode item.Value with
    | .error err => ((GoValue.nil, some err), st1)
    | .ok value => ((value, none), st1)

/-- The method `MemcachedStore.Delete`. -/
def MemcachedStore.Delete (m : MemcachedStore β σ) (_ctx : Context)
    (sessionID : String) (st : σ) : Option GoError × σ :=
  m.Client.Delete sessionID st

/-! ## The cache backend -/

/-- An entry of the cache: the stored bytes, and the second at which it expires
(`none`: it does not expire). -/
structure Entry (β : Type) where
  Value : β
  expiry : Option Int

/-- Modelled from the spec: the external cache of section 6, a key-value service with
`Set(key, bytes, ttl_seconds)`, `Get(key)` and `Delete(key)` whose entries expire by
themselves.  The state is the clock of the server, in seconds, and its entries.  The
server is reachable: transport failures are outside this model, and what concerns them is
stated for an arbitrary `Client`. -/
structure Memcached (β : Type) where
  now : Int
  entries : String → Option (Entry β)

namespace Memcached

/-- The empty cache at time `now`. -/
def empty (now : Int) : Memcached β := { now := now, entries := fun _ => none }

/-- The reading of `Item.Expiration` by the cache.  The spec leaves it to the backend; it
is the one documented for `memcache.Item` and for the memcached protocol: the expiration is
in seconds, either relative to now (up to one month) or an absolute Unix time, zero means
that the item has no expiration time, and a negative one is already past. -/
def expiryOf (c : Memcached β) (expiration : Int) : Option Int :=
  if expiration = 0 then none
  else if expiration < 0 then some c.now
  else if expiration ≤ 60 * 60 * 24 * 30 then some (c.now + expiration)
  else some expiration

/-- An entry is live until its expiry. -/
def live (c : Memcached β) (e : Entry β) : Bool :=
  match e.expiry with
  | none => true
  | some t => decide (c.now < t)

/-- The live entry under `key`, if any. -/
def lookup (c : Memcached β) (key : String) : Option (Entry β) :=
  match c.entries key with
  | none => none
  | some e => if c.live e then some e else none

/-- Write an entry under `key`, replacing what was there. -/
def store (c : Memcached β) (key : String) (e : Entry β) : Memcached β :=
  { c with entries := fun k => if k = key then some e else c.entries k }

/-- Drop the entry under `key`. -/
def remove (c : Memcached β) (key : String) : Memcached β :=
  { c with entries := fun k => if k = key then none else c.entries k }

/-- Let `seconds` seconds pass. -/
def advance (c : Memcached β) (seconds : Int) : Memcached β :=
  { c with now := c.now + seconds }

/-- Modelled from the spec: the cache client of section 6 in front of the cache.
`Set` stores the bytes with the expiration, `Get` fails with `ErrCacheMiss` when the key
is absent or expired, `Delete` removes the entry of exactly that key and reports
`ErrCacheMiss` when there is none. -/
def client : Client β (Memcached β) where
  Set item c := (none, c.store item.Key { Value := item.Value, expiry := c.expiryOf item.Expiration })
  Get key c :=
    match c.lookup key with
    | some e => (.ok { Key := key, Value := e.Value, Expiration := 0 }, c)
    | none => (.error GoError.ErrCacheMiss, c)
  Delete key c :=
    match c.lookup key with
    | some _ => (none, c.remove key)
    | none => (some GoError.ErrCacheMiss, c)

end Memcached

/-- A call received by a cache client. -/
inductive ClientCall (β : Type) where
  | Set (item : Item β)
  | Get (key : String)
  | Delete (key : String)
  deriving DecidableEq, Repr

/-- A client that only records the calls it receives, oldest first, and answers `Set`
and `Delete` with the given errors and every `Get` with a miss. -/
def recordingClient (setErr deleteErr : Option GoError) : Client β (List (ClientCall β)) where
  Set item log := (setErr, log ++ [ClientCall.Set item])
  Get key log := (.error GoError.ErrCacheMiss, log ++ [ClientCall.Get key])
  Delete key log := (deleteErr, log ++ [ClientCall.Delete key])

/-! ## A model of `encoding/gob` -/

/-- Wire types of a gob stream: those of the basic types, and the single wire type that
stands for every interface type. -/
inductive WireType where
  | bool
  | int
  | string
  | strings
  | interface
  deriving DecidableEq, Repr

/-- A gob stream holding one value, in parsed form: the wire type announced at the head
of the message, and the value that follows it. -/
structure GobStream where
  wireType : WireType
  payload : Basic
  deriving DecidableEq, Repr

/-- The wire type of a value of a basic type. -/
def Basic.wireType : Basic → WireType
  | .bool _ => WireType.bool
  | .int _ => WireType.int
  | .string _ => WireType.string
  | .strings _ => WireType.strings

/-- The name that gob prints for a wire type. -/
def WireType.name : WireType → String
  | .bool => "bool"
  | .int => "int"
  | .string => "string"
  | .strings => "[]string"
  | .interface => "interface"

/-- The call `Encoder.Encode(value)` as documented by `encoding/gob`: the value handed
over is what the interface holds, pointers are flattened, and the message carries the wire
type of what remains.  A value of a basic type is sent under its own wire type; only
a pointer to an interface is sent under the interface wire type.  The nil interface is
refused. -/
def gobEncode : GoValue → Except GoError GobStream
  | .nil => .error (GoError.gob "gob: cannot encode nil value")
  | .val c => .ok { wireType := c.wireType, payload := c }
  | .ifacePtr c => .ok { wireType := WireType.interface, payload := c }

/-- The call `Decoder.Decode(&value)` for a `var value interface{}`, as documented by
`encoding/gob`: the target must be a pointer to the correct type for the data received,
and a local interface type is only compatible with the interface wire type. -/
def gobDecode (s : GobStream) : Except GoError GoValue :=
  if s.wireType = WireType.interface then .ok (GoValue.val s.payload)
  else .error (GoError.gob
    ("gob: local interface type *interface \x7b\x7d can only be decoded from remote interface type; received concrete type "
      ++ s.wireType.name))

/-- The runtime with the gob model above; out-of-range conversions to `int32` give the
least `int32`, as on amd64. -/
def goRuntime : Runtime GobStream where
  gobEncode := gobEncode
  gobDecode := gobDecode
  int32OutOfRange _ := -2147483648

/-! ## Cookies, requests and responses -/

/-- A `http.Cookie`, with the fields the session manager sets. -/
structure Cookie where
  Name : String
  Value : String
  Path : String
  HttpOnly : Bool
  Secure : Bool
  Expires : Time
  deriving DecidableEq, Repr

/-- A `http.ResponseWriter`, as the cookies of its `Set-Cookie` header lines, in order. -/
structure ResponseWriter where
  cookies : List Cookie
  deriving DecidableEq, Repr

/-- The table `isTokenTable` of `net/http`: the characters of an RFC 7230 token, which are
the ASCII letters and digits and the fifteen marks listed here by code (the exclamation
mark, the number sign, the dollar, percent and ampersand signs, the apostrophe, the
asterisk, the plus and minus signs, the dot, the caret, the underscore, the grave accent,
the bar and the tilde). -/
def isTokenRune (c : Char) : Bool :=
  c.isAlphanum ||
    [33, 35, 36, 37, 38, 39, 42, 43, 45, 46, 94, 95, 96, 124, 126].contains c.toNat

/-- The function `isCookieNameValid` of `net/http`: the name is not empty and each of its
characters is a token character. -/
def isCookieNameValid (raw : String) : Bool :=
  raw != "" && raw.data.all isTokenRune

/-- The function `http.SetCookie`: it adds the header line `Set-Cookie` with the text of
`cookie.String()` when that text is not empty.  `Cookie.String` is empty when the name of
the cookie is not valid, and the cookie is then dropped without a word; otherwise the
response gets one more `Set-Cookie` line, for this cookie. -/
def SetCookie (w : ResponseWriter) (cookie : Cookie) : ResponseWriter :=
  if isCookieNameValid cookie.Name then { cookies := w.cookies ++ [cookie] } else w

/-- A `http.Request`: its context and the cookies it carries, in order. -/
structure Request where
  ctx : Context
  Cookies : List Cookie
  deriving DecidableEq, Repr

/-- The method `Request.Context`. -/
def Request.Context (r : Request) : Context := r.ctx

/-- The method `Request.Cookie`: the first cookie of that name, or `ErrNoCookie`. -/
def Request.Cookie (r : Request) (name : String) : Except GoError Cookie :=
  match r.Cookies.find? (fun c => c.Name = name) with
  | some c => .ok c
  | none => .error GoError.ErrNoCookie

/-! ## The session manager -/

/-- Modelled from the spec: the interface `SessionStore`, which sessions.go uses and does
not declare; section 4.1 gives its operations `Set`, `Get` and `Delete`, here with the
signatures of the `MemcachedStore` methods that implement it. -/
structure SessionStore (σ : Type) where
  Set : Context → String → String → GoValue → σ → Option GoError × σ
  Get : Context → String → String → σ → (GoValue × Option GoError) × σ
  Delete : Context → String → σ → Option GoError × σ

/-- A `MemcachedStore` as a `SessionStore`. -/
def MemcachedStore.toSessionStore (rt : Runtime β) (m : MemcachedStore β σ) : SessionStore σ where
  Set := m.Set rt
  Get := m.Get rt
  Delete := m.Delete

/-- A call received by a session store. -/
inductive StoreCall where
  | Set (sessionID key : String) (value : GoValue)
  | Get (sessionID key : String)
  | Delete (sessionID : String)
  deriving DecidableEq, Repr

/-- A store that only records the calls it receives, oldest first, and answers each
with the given error. -/
def recordingStore (err : Option GoError) : SessionStore (List StoreCall) where
  Set _ sessionID key value log := (err, log ++ [StoreCall.Set sessionID key value])
  Get _ sessionID key log := ((GoValue.nil, err), log ++ [StoreCall.Get sessionID key])
  Delete _ sessionID log := (err, log ++ [StoreCall.Delete sessionID])

/-- The struct `SessionManager`. -/
structure SessionManager (σ : Type) where
  Store : SessionStore σ
  CookieKey : String
  TTL : Duration

/-- The method `SessionManager.NewSession`.  The argument `uuid` is what
`uuid.NewString()` returns and `now` what `time.Now()` returns; the result is the session
identifier, the response and the state of the store. -/
def SessionManager.NewSession (s : SessionManager σ) (uuid : String) (now : Time)
    (w : ResponseWriter) (st : σ) : String × ResponseWriter × σ :=
  let sessionID := uuid
  let w1 := SetCookie w
    { Name := s.CookieKey
      Value := sessionID
      Path := "/"
      HttpOnly := true
      Secure := true
      Expires := Time.Add now s.TTL }
  (sessionID, w1, st)

/-- The method `SessionManager.GetSession`: the pair `(sessionID, err)`. -/
def SessionManager.GetSession (s : SessionManager σ) (r : Request) : String × Option GoError :=
  match r.Cookie s.CookieKey with
  | .error err => ("", some err)
  | .ok cookie => (cookie.Value, none)

/-- The method `SessionManager.DestroySession`.  The argument `now` is what `time.Now()`
returns; the result is the response and the state of the store. -/
def SessionManager.DestroySession (s : SessionManager σ) (now : Time)
    (w : ResponseWriter) (r : Request) (st : σ) : ResponseWriter × σ :=
  let (sessionID, err) := s.GetSession r
  let st1 := if err = none then (s.Store.Delete r.Context sessionID st).2 else st
  let w1 := SetCookie w
    { Name := s.CookieKey
      Value := ""
      Path := "/"
      HttpOnly := true
      Secure := true
      Expires := Time.Add now (-Hour) }
  (w1, st1)

/-! ## Histories of a store over the cache -/

/-- What can happen to a `MemcachedStore` over the cache: a call of one of its three
methods, or the passing of some seconds. -/
inductive CacheEvent where
  | Set (sessionID key : String) (value : GoValue)
  | Get (sessionID key : String)
  | Delete (sessionID : String)
  | wait (seconds : Int)
  deriving DecidableEq, Repr

/-- The cache after a history of events, oldest first. -/
def MemcachedStore.run (rt : Runtime β) (m : MemcachedStore β (Memcached β)) (ctx : Context) :
    List CacheEvent → Memcached β → Memcached β
  | [], c => c
  | .Set sessionID key value :: rest, c =>
    MemcachedStore.run rt m ctx rest (m.Set rt ctx sessionID key value c).2
  | .Get sessionID key :: rest, c =>
    MemcachedStore.run rt m ctx rest (m.Get rt ctx sessionID key c).2
  | .Delete sessionID :: rest, c =>
    MemcachedStore.run rt m ctx rest (m.Delete ctx sessionID c).2
  | .wait seconds :: rest, c =>
    MemcachedStore.run rt m ctx rest (c.advance seconds)

/-! ## Lemmas on `float64` rounding -/

namespace Float64

theorem roundTiesEven_le (y : ℚ) : (roundTiesEven y : ℚ) ≤ y + 1 / 2 := by
  unfold roundTiesEven
  have h1 := Int.floor_le y
  simp only
  split_ifs with h h1 h2
  · linarith
  · push_cast; linarith
  · linarith
  · push_cast; linarith

theorem le_roundTiesEven (n : ℤ) (y : ℚ) (h : (n : ℚ) ≤ y) : n ≤ roundTiesEven y := by
  have h1 : n ≤ ⌊y⌋ := Int.le_floor.mpr h
  unfold roundTiesEven
  simp only
  split_ifs <;> omega

theorem roundTiesEven_intCast (n : ℤ) : roundTiesEven (n : ℚ) = n := by
  unfold roundTiesEven
  simp

theorem roundTiesEven_neg (y : ℚ) : roundTiesEven (-y) = -roundTiesEven y := by
  by_cases hy : (⌊y⌋ : ℚ) = y
  · rw [← hy, ← Int.cast_neg, roundTiesEven_intCast, roundTiesEven_intCast]
  · have hlt : (⌊y⌋ : ℚ) < y := lt_of_le_of_ne (Int.floor_le y) hy
    have hub := Int.lt_floor_add_one y
    have hfl : ⌊-y⌋ = -⌊y⌋ - 1 := by
      rw [Int.floor_eq_iff]
      push_cast
      constructor <;> linarith
    unfold roundTiesEven
    simp only [hfl]
    push_cast
    split_ifs <;> first | omega | (exfalso; linarith)

theorem exponent_neg (q : ℚ) : exponent (-q) = exponent q := by
  unfold exponent; rw [abs_neg]

theorem ulp_neg (q : ℚ) : ulp (-q) = ulp q := by
  unfold ulp; rw [exponent_neg]

theorem round_neg (q : ℚ) : round (-q) = -round q := by
  unfold round
  rw [ulp_neg, neg_div, roundTiesEven_neg]
  push_cast
  ring

theorem exponent_le (q : ℚ) (E : ℤ) (hE : -1022 ≤ E) (h0 : q ≠ 0)
    (hq : |q| < (2 : ℚ) ^ (E + 1)) : exponent q ≤ E := by
  unfold exponent
  apply max_le _ hE
  have hpos : 0 < |q| := abs_pos.mpr h0
  have := (Int.lt_zpow_iff_log_lt (b := 2) (by norm_num) hpos).mp (by exact_mod_cast hq)
  omega

theorem ulp_pos (q : ℚ) : 0 < ulp q := by
  unfold ulp; positivity

theorem ulp_le (q : ℚ) (E : ℤ) (hE : -1022 ≤ E) (h0 : q ≠ 0)
    (hq : |q| < (2 : ℚ) ^ (E + 1)) : ulp q ≤ (2 : ℚ) ^ (E - 52) := by
  unfold ulp
  apply zpow_le_zpow_right₀ (by norm_num)
  have := exponent_le q E hE h0 hq
  omega

theorem round_zero : round 0 = 0 := by
  unfold round; simp [roundTiesEven]

/-- Rounding moves a number up by at most half a unit in the last place. -/
theorem round_le_add (q : ℚ) (E : ℤ) (hE : -1022 ≤ E) (hq : |q| < (2 : ℚ) ^ (E + 1)) :
    round q ≤ q + (2 : ℚ) ^ (E - 53) := by
  by_cases h0 : q = 0
  · subst h0
    rw [round_zero]
    have : (0 : ℚ) < 2 ^ (E - 53) := by positivity
    linarith
  unfold round
  have hu := ulp_pos q
  have h1 := roundTiesEven_le (q / ulp q)
  have h2 : (roundTiesEven (q / ulp q) : ℚ) * ulp q ≤ (q / ulp q + 1 / 2) * ulp q :=
    mul_le_mul_of_nonneg_right h1 hu.le
  have h3 : (q / ulp q + 1 / 2) * ulp q = q + ulp q / 2 := by
    field_simp
    ring
  have h4 : (2 : ℚ) ^ (E - 52) = 2 * (2 : ℚ) ^ (E - 53) := by
    rw [show E - 52 = (E - 53) + 1 by ring, zpow_add_one₀ (by norm_num)]; ring
  have h5 := ulp_le q E hE h0 hq
  linarith

/-- An integer that is at most `q` is at most the rounding of `q`, below `2 ^ 53`. -/
theorem le_round_of_intCast_le (n : ℤ) (q : ℚ) (h : (n : ℚ) ≤ q)
    (hq : |q| < (2 : ℚ) ^ (53 : ℤ)) : (n : ℚ) ≤ round q := by
  by_cases h0 : q = 0
  · subst h0; rw [round_zero]; exact h
  have he : exponent q ≤ 52 := exponent_le q 52 (by norm_num) h0 (by simpa using hq)
  obtain ⟨k, hk⟩ : ∃ k : ℕ, (k : ℤ) = 52 - exponent q := ⟨(52 - exponent q).toNat, by omega⟩
  have hulp : ulp q = ((2 : ℚ) ^ k)⁻¹ := by
    unfold ulp
    rw [show exponent q - 52 = -(k : ℤ) by omega, zpow_neg, zpow_natCast]
  unfold round
  rw [hulp, div_inv_eq_mul]
  have hp : (0 : ℚ) < 2 ^ k := by positivity
  have h1 : ((n * 2 ^ k : ℤ) : ℚ) ≤ q * 2 ^ k := by
    push_cast
    exact mul_le_mul_of_nonneg_right h hp.le
  have h2 := le_roundTiesEven _ _ h1
  have h3 : ((n * 2 ^ k : ℤ) : ℚ) ≤ (roundTiesEven (q * 2 ^ k) : ℚ) := by exact_mod_cast h2
  push_cast at h3
  rw [le_mul_inv_iff₀ hp]
  exact h3

/-- An integer below `2 ^ 53` in absolute value is a `float64`. -/
theorem round_intCast (n : ℤ) (hn : |(n : ℚ)| < (2 : ℚ) ^ (53 : ℤ)) : round (n : ℚ) = n := by
  by_cases h0 : (n : ℚ) = 0
  · rw [h0, round_zero]
  have he : exponent (n : ℚ) ≤ 52 := exponent_le _ 52 (by norm_num) h0 (by simpa using hn)
  obtain ⟨k, hk⟩ : ∃ k : ℕ, (k : ℤ) = 52 - exponent (n : ℚ) :=
    ⟨(52 - exponent (n : ℚ)).toNat, by omega⟩
  have hulp : ulp (n : ℚ) = ((2 : ℚ) ^ k)⁻¹ := by
    unfold ulp
    rw [show exponent (n : ℚ) - 52 = -(k : ℤ) by omega, zpow_neg, zpow_natCast]
  unfold round
  rw [hulp, div_inv_eq_mul]
  have hp : (0 : ℚ) < 2 ^ k := by positivity
  have h1 : (n : ℚ) * 2 ^ k = ((n * 2 ^ k : ℤ) : ℚ) := by push_cast; ring
  rw [h1, roundTiesEven_intCast]
  push_cast
  field_simp

theorem truncate_neg (x : ℚ) : truncate (-x) = -truncate x := by
  unfold truncate
  rcases lt_trichotomy x 0 with h | h | h
  · rw [if_pos (by linarith), if_neg (by linarith), Int.floor_neg]
  · subst h; simp
  · rw [if_neg (by linarith), if_pos (by linarith), Int.ceil_neg]

end Float64

/-! ## Whole seconds of a duration -/

theorem neg_tmod (a b : Int) : (-a).tmod b = -(a.tmod b) := by
  rw [Int.tmod_def, Int.tmod_def, Int.neg_tdiv]
  ring

theorem Duration.Seconds_neg (d : Int) : Duration.Seconds (-d) = -Duration.Seconds d := by
  unfold Duration.Seconds Float64.add Float64.div Float64.ofInt
  simp only [Int.neg_tdiv, neg_tmod, Int.cast_neg, Float64.round_neg, neg_div]
  rw [← neg_add, Float64.round_neg]

/-- Below `2 ^ 24` seconds the `float64` of `Seconds` lies in the second of the duration. -/
theorem Duration.Seconds_bounds (d : Int) (h0 : 0 ≤ d) (h1 : d < 16777216 * Second) :
    ((d.tdiv Second : ℤ) : ℚ) ≤ Duration.Seconds d ∧
      Duration.Seconds d < ((d.tdiv Second : ℤ) : ℚ) + 1 := by
  unfold Second at *
  have hs0 : 0 ≤ d.tdiv 1000000000 := Int.tdiv_nonneg h0 (by norm_num)
  have hs1 : d.tdiv 1000000000 < 16777216 := by
    rw [Int.tdiv_eq_ediv h0 (by norm_num)]; omega
  have hn0 : 0 ≤ d.tmod 1000000000 := Int.tmod_nonneg _ h0
  have hn1 : d.tmod 1000000000 < 1000000000 := Int.tmod_lt_of_pos _ (by norm_num)
  have hsq0 : (0 : ℚ) ≤ (d.tdiv 1000000000 : ℤ) := by exact_mod_cast hs0
  have hsq1 : ((d.tdiv 1000000000 : ℤ) : ℚ) ≤ 16777215 := by
    have : d.tdiv 1000000000 ≤ 16777215 := by omega
    exact_mod_cast this
  have hnq0 : (0 : ℚ) ≤ (d.tmod 1000000000 : ℤ) := by exact_mod_cast hn0
  have hnq1 : ((d.tmod 1000000000 : ℤ) : ℚ) ≤ 999999999 := by
    have : d.tmod 1000000000 ≤ 999999999 := by omega
    exact_mod_cast this
  unfold Duration.Seconds Float64.add Float64.div Float64.ofInt Second
  simp only
  rw [Float64.round_intCast (d.tdiv 1000000000) (by rw [abs_of_nonneg hsq0]; norm_num; linarith),
    Float64.round_intCast (d.tmod 1000000000) (by rw [abs_of_nonneg hnq0]; norm_num; linarith)]
  set s : ℚ := ((d.tdiv 1000000000 : ℤ) : ℚ) with hs
  set n : ℚ := ((d.tmod 1000000000 : ℤ) : ℚ) with hn
  have hq0 : 0 ≤ n / 1000000000 := by positivity
  have hq1 : n / 1000000000 ≤ 999999999 / 1000000000 := by
    apply div_le_div_of_nonneg_right hnq1 (by norm_num)
  -- the fraction, rounded, stays clear of one
  have hf0 : (0 : ℚ) ≤ Float64.round (n / 1000000000) := by
    have := Float64.le_round_of_intCast_le 0 (n / 1000000000) (by simpa using hq0)
      (by rw [abs_of_nonneg hq0]; norm_num; linarith)
    simpa using this
  have hf1 : Float64.round (n / 1000000000) ≤ n / 1000000000 + (2 : ℚ) ^ (-54 : ℤ) := by
    have := Float64.round_le_add (n / 1000000000) (-1) (by norm_num)
      (by rw [abs_of_nonneg hq0]; norm_num; linarith)
    simpa using this
  set f : ℚ := Float64.round (n / 1000000000) with hf
  have hx0 : 0 ≤ s + f := by linarith
  have h54 : (2 : ℚ) ^ (-54 : ℤ) = 1 / 18014398509481984 := by norm_num [zpow_neg]
  rw [h54] at hf1
  constructor
  · apply Float64.le_round_of_intCast_le
    · linarith
    · rw [abs_of_nonneg hx0]; norm_num; linarith
  · have := Float64.round_le_add (s + f) 23 (by norm_num)
      (by rw [abs_of_nonneg hx0]; norm_num; linarith)
    norm_num at this
    linarith

/-- Below `2 ^ 24` seconds in absolute value, `int32(d.Seconds())` is the quotient
of `d` by `time.Second`, truncated towards zero. -/
theorem int32_Seconds (rt : Runtime β) (d : Int) (h : |d| < 16777216 * Second) :
    rt.int32 (Duration.Seconds d) = d.tdiv Second := by
  have key : ∀ e : Int, 0 ≤ e → e < 16777216 * Second →
      Float64.truncate (Duration.Seconds e) = e.tdiv Second ∧ e.tdiv Second < 16777216 ∧
        0 ≤ e.tdiv Second := by
    intro e h0 h1
    obtain ⟨hlo, hhi⟩ := Duration.Seconds_bounds e h0 h1
    have hs0 : 0 ≤ e.tdiv Second := Int.tdiv_nonneg h0 (by unfold Second; norm_num)
    have hs1 : e.tdiv Second < 16777216 := by
      unfold Second at *
      rw [Int.tdiv_eq_ediv h0 (by norm_num)]; omega
    refine ⟨?_, hs1, hs0⟩
    unfold Float64.truncate
    have hnn : (0 : ℚ) ≤ Duration.Seconds e := by
      have : (0 : ℚ) ≤ ((e.tdiv Second : ℤ) : ℚ) := by exact_mod_cast hs0
      linarith
    rw [if_pos hnn, Int.floor_eq_iff]
    exact ⟨hlo, hhi⟩
  unfold Runtime.int32
  simp only
  rcases le_total 0 d with h0 | h0
  · rw [abs_of_nonneg h0] at h
    obtain ⟨ht, h1, h2⟩ := key d h0 h
    rw [ht, if_pos (by omega)]
  · rw [abs_of_nonpos h0] at h
    obtain ⟨ht, h1, h2⟩ := key (-d) (by omega) h
    have hneg : Float64.truncate (Duration.Seconds d) = d.tdiv Second := by
      have := Float64.truncate_neg (Duration.Seconds d)
      rw [← Duration.Seconds_neg, ht, Int.neg_tdiv] at this
      omega
    rw [Int.neg_tdiv] at h1 h2
    rw [hneg, if_pos (by omega)]

namespace Float64

theorem exponent_eq (q : ℚ) (e : ℤ) (he : -1022 ≤ e) (h1 : (2 : ℚ) ^ e ≤ |q|)
    (h2 : |q| < (2 : ℚ) ^ (e + 1)) : exponent q = e := by
  have hpos : 0 < |q| := lt_of_lt_of_le (by positivity) h1
  have hl : e ≤ Int.log 2 |q| :=
    (Int.zpow_le_iff_le_log (b := 2) (by norm_num) hpos).mp (by exact_mod_cast h1)
  have hu : Int.log 2 |q| < e + 1 :=
    (Int.lt_zpow_iff_log_lt (b := 2) (by norm_num) hpos).mp (by exact_mod_cast h2)
  unfold exponent
  rw [max_eq_left (by omega)]
  omega

theorem roundTiesEven_eq (y : ℚ) (n : ℤ) (h1 : (n : ℚ) - 1 / 2 < y) (h2 : y < (n : ℚ) + 1 / 2) :
    roundTiesEven y = n := by
  have hfl := Int.floor_le y
  have hfu := Int.lt_floor_add_one y
  have hcases : ⌊y⌋ = n ∨ ⌊y⌋ = n - 1 := by
    have a1 : (⌊y⌋ : ℚ) < (n : ℚ) + 1 := by linarith
    have a2 : (n : ℚ) - 2 < (⌊y⌋ : ℚ) := by linarith
    have b1 : ⌊y⌋ < n + 1 := by exact_mod_cast a1
    have b2 : n - 2 < ⌊y⌋ := by exact_mod_cast a2
    omega
  unfold roundTiesEven
  simp only
  rcases hcases with hc | hc
  · rw [hc]
    rw [if_pos (by linarith)]
  · rw [hc]
    push_cast
    rw [if_neg (by linarith), if_pos (by linarith)]
    ring

/-- The `float64` of `0.999999999`. -/
theorem round_fraction :
    round (999999999 / 1000000000) = 9007199245733793 / 9007199254740992 := by
  have he : exponent (999999999 / 1000000000) = -1 :=
    exponent_eq _ (-1) (by norm_num) (by norm_num [abs_of_nonneg, zpow_neg])
      (by norm_num [abs_of_nonneg])
  unfold round ulp
  rw [he, roundTiesEven_eq _ 9007199245733793 (by norm_num [zpow_neg]) (by norm_num [zpow_neg])]
  norm_num [zpow_neg]

/-- The `float64` sum of `16777216` and the `float64` of `0.999999999` is `16777217`. -/
theorem round_sum :
    round (16777216 + 9007199245733793 / 9007199254740992) = 16777217 := by
  have he : exponent (16777216 + 9007199245733793 / 9007199254740992) = 24 :=
    exponent_eq _ 24 (by norm_num) (by norm_num [abs_of_nonneg])
      (by norm_num [abs_of_nonneg])
  unfold round ulp
  rw [he, roundTiesEven_eq _ 4503599895805952 (by norm_num [zpow_neg]) (by norm_num [zpow_neg])]
  norm_num [zpow_neg]

end Float64

/-- The `float64` seconds of `16777216.999999999s` are `16777217`. -/
theorem Duration.Seconds_example : Duration.Seconds 16777216999999999 = 16777217 := by
  unfold Duration.Seconds Float64.add Float64.div Float64.ofInt
  have h1 : (16777216999999999 : Int).tdiv Second = 16777216 := by decide
  have h2 : (16777216999999999 : Int).tmod Second = 999999999 := by decide
  simp only [h1, h2]
  rw [Float64.round_intCast 16777216 (by norm_num [abs_of_nonneg]),
    Float64.round_intCast 999999999 (by norm_num [abs_of_nonneg])]
  norm_num only [Int.cast_ofNat]
  rw [Float64.round_fraction, Float64.round_sum]

theorem int32_Seconds_example (rt : Runtime β) :
    rt.int32 (Duration.Seconds 16777216999999999) = 16777217 := by
  unfold Runtime.int32
  rw [Duration.Seconds_example]
  have : Float64.truncate 16777217 = 16777217 := by
    unfold Float64.truncate
    rw [if_pos (by norm_num)]
    exact Int.floor_eq_iff.mpr (by norm_num)
  simp only [this]
  rw [if_pos (by norm_num)]

/-! ## Lemmas on composite keys and on the cache -/

theorem append_cons_inj {α : Type} (c : α) :
    ∀ (l1 l2 r1 r2 : List α), c ∉ l1 → c ∉ l2 → l1 ++ c :: r1 = l2 ++ c :: r2 →
      l1 = l2 ∧ r1 = r2
  | [], [], r1, r2, _, _, h => by simpa using h
  | [], b :: l2, r1, r2, _, h2, h => by
      simp only [List.nil_append, List.cons_append, List.cons.injEq] at h
      exact absurd (by rw [h.1]; exact List.mem_cons_self _ _) h2
  | a :: l1, [], r1, r2, h1, _, h => by
      simp only [List.nil_append, List.cons_append, List.cons.injEq] at h
      exact absurd (by rw [← h.1]; exact List.mem_cons_self _ _) h1
  | a :: l1, b :: l2, r1, r2, h1, h2, h => by
      simp only [List.cons_append, List.cons.injEq] at h
      have ih := append_cons_inj c l1 l2 r1 r2 (fun hm => h1 (List.mem_cons_of_mem _ hm))
        (fun hm => h2 (List.mem_cons_of_mem _ hm)) h.2
      exact ⟨by rw [h.1, ih.1], ih.2⟩

theorem compositeKey_data (s k : String) : (s ++ ":" ++ k).data = s.data ++ ':' :: k.data := by
  rw [String.data_append, String.data_append]
  show (s.data ++ [':']) ++ k.data = s.data ++ ':' :: k.data
  simp

theorem compositeKey_inj (s1 s2 k1 k2 : String) (h1 : ':' ∉ s1.data) (h2 : ':' ∉ s2.data)
    (h : s1 ++ ":" ++ k1 = s2 ++ ":" ++ k2) : s1 = s2 ∧ k1 = k2 := by
  have hd : (s1 ++ ":" ++ k1).data = (s2 ++ ":" ++ k2).data := by rw [h]
  rw [compositeKey_data, compositeKey_data] at hd
  obtain ⟨a, b⟩ := append_cons_inj ':' _ _ _ _ h1 h2 hd
  exact ⟨String.ext a, String.ext b⟩

theorem compositeKey_ne_self (s k : String) : s ++ ":" ++ k ≠ s := by
  intro h
  have hl : (s ++ ":" ++ k).length = s.length := by rw [h]
  rw [String.length_append, String.length_append] at hl
  have h1 : (":" : String).length = 1 := rfl
  omega

namespace Memcached

theorem lookup_store_ne (c : Memcached β) (key k : String) (e : Entry β) (h : k ≠ key) :
    (c.store key e).lookup k = c.lookup k := by
  simp [lookup, store, live, h]

theorem lookup_store_self (c : Memcached β) (key : String) (e : Entry β) :
    (c.store key e).lookup key = if c.live e then some e else none := by
  simp [lookup, store, live]

theorem lookup_remove_ne (c : Memcached β) (key k : String) (h : k ≠ key) :
    (c.remove key).lookup k = c.lookup k := by
  simp [lookup, remove, live, h]

theorem lookup_remove_self (c : Memcached β) (key : String) :
    (c.remove key).lookup key = none := by
  simp [lookup, remove]

/-- What `Delete` leaves of the cache. -/
theorem delete_frame (c : Memcached β) (key : String) :
    ((client.Delete key c).2).lookup key = none ∧
      (∀ k, k ≠ key → ((client.Delete key c).2).entries k = c.entries k) ∧
      (∀ k, k ≠ key → ((client.Delete key c).2).lookup k = c.lookup k) ∧
      ((client.Delete key c).2).now = c.now := by
  unfold client
  simp only
  cases hl : c.lookup key with
  | none => simp [hl]
  | some e =>
    simp only
    refine ⟨lookup_remove_self c key, ?_, fun k hk => lookup_remove_ne c key k hk, rfl⟩
    intro k hk
    simp [remove, hk]

end Memcached

/-- On the cache model, the result of `Get` is read off the live entry under the
composite key. -/
theorem MemcachedStore.Get_client (rt : Runtime β) (TTL : Duration) (ctx : Context)
    (sessionID key : String) (c : Memcached β) :
    MemcachedStore.Get rt { Client := Memcached.client, TTL := TTL } ctx sessionID key c =
      (match c.lookup (sessionID ++ ":" ++ key) with
        | none => (GoValue.nil, some GoError.ErrCacheMiss)
        | some e =>
          match rt.gobDecode e.Value with
          | .error err => (GoValue.nil, some err)
          | .ok value => (value, none), c) := by
  unfold MemcachedStore.Get Memcached.client
  simp only
  cases hl : c.lookup (sessionID ++ ":" ++ key) with
  | none => rfl
  | some e =>
    simp only
    cases rt.gobDecode e.Value <;> rfl

/-- A key that no Set of a history writes to and that is absent before is absent after. -/
theorem MemcachedStore.run_entries_none (rt : Runtime β) (TTL : Duration) (ctx : Context)
    (K : String) :
    ∀ (history : List CacheEvent) (c : Memcached β), c.entries K = none →
      (∀ id k v, CacheEvent.Set id k v ∈ history → id ++ ":" ++ k ≠ K) →
      (MemcachedStore.run rt { Client := Memcached.client, TTL := TTL } ctx history c).entries K =
        none
  | [], c, hc, _ => hc
  | .Set id k v :: rest, c, hc, hs => by
    unfold MemcachedStore.run
    apply MemcachedStore.run_entries_none rt TTL ctx K rest
    · have hne : K ≠ id ++ ":" ++ k := fun e => hs id k v (List.mem_cons_self _ _) e.symm
      unfold MemcachedStore.Set
      cases rt.gobEncode v with
      | error err => exact hc
      | ok buf => simp [Memcached.client, Memcached.store, hne, hc]
    · intro id1 k1 v1 hm
      exact hs id1 k1 v1 (List.mem_cons_of_mem _ hm)
  | .Get id k :: rest, c, hc, hs => by
    unfold MemcachedStore.run
    apply MemcachedStore.run_entries_none rt TTL ctx K rest
    · rw [MemcachedStore.Get_client]
      exact hc
    · intro id1 k1 v1 hm
      exact hs id1 k1 v1 (List.mem_cons_of_mem _ hm)
  | .Delete id :: rest, c, hc, hs => by
    unfold MemcachedStore.run
    apply MemcachedStore.run_entries_none rt TTL ctx K rest
    · unfold MemcachedStore.Delete Memcached.client
      simp only
      cases c.lookup id with
      | none => exact hc
      | some e => simp [Memcached.remove, hc]
    · intro id1 k1 v1 hm
      exact hs id1 k1 v1 (List.mem_cons_of_mem _ hm)
  | .wait seconds :: rest, c, hc, hs => by
    unfold MemcachedStore.run
    apply MemcachedStore.run_entries_none rt TTL ctx K rest
    · exact hc
    · intro id1 k1 v1 hm
      exact hs id1 k1 v1 (List.mem_cons_of_mem _ hm)

/-- With the gob model and a TTL of one hour, Set on the cache stores the encoding for one
hour. -/
theorem MemcachedStore.Set_client_hour (ctx : Context) (sessionID key : String) (v : GoValue)
    (buf : GobStream) (henc : gobEncode v = .ok buf) (c : Memcached GobStream) :
    MemcachedStore.Set goRuntime { Client := Memcached.client, TTL := 3600 * Second } ctx
        sessionID key v c =
      (none, c.store (sessionID ++ ":" ++ key)
        { Value := buf, expiry := some (c.now + 3600) }) := by
  have hexp : goRuntime.int32 (Duration.Seconds (3600 * Second)) = 3600 := by
    rw [int32_Seconds goRuntime (3600 * Second) (by unfold Second; norm_num [abs_of_nonneg])]
    decide
  unfold MemcachedStore.Set
  simp only [goRuntime] at hexp ⊢
  rw [henc, hexp]
  simp [Memcached.client, Memcached.expiryOf]

/-! ## The claims -/

/-- C10: the composite cache key of Set and Get separates sessions.  For session
identifiers without a colon, equal composite keys come from equal identifiers and equal
keys, so on the cache a Set for one pair leaves the entry of every other pair as it was;
and no composite key is the session identifier itself. -/
theorem C10_composite_key_separates (s1 s2 k1 k2 : String)
    (h1 : ':' ∉ s1.data) (h2 : ':' ∉ s2.data) :
    (compositeKey s1 k1 = compositeKey s2 k2 → s1 = s2 ∧ k1 = k2) ∧
    (∀ (rt : Runtime β) (TTL : Duration) (ctx : Context) (v : GoValue) (c : Memcached β),
      (s1 ≠ s2 ∨ k1 ≠ k2) →
      ((MemcachedStore.Set rt { Client := Memcached.client, TTL := TTL } ctx s1 k1 v c).2).lookup
          (compositeKey s2 k2) = c.lookup (compositeKey s2 k2)) ∧
    (∀ s k : String, compositeKey s k ≠ s) := by
  refine ⟨compositeKey_inj s1 s2 k1 k2 h1 h2, ?_, compositeKey_ne_self⟩
  intro rt TTL ctx v c hne
  have hk : compositeKey s2 k2 ≠ compositeKey s1 k1 := by
    intro h
    obtain ⟨a, b⟩ := compositeKey_inj s2 s1 k2 k1 h2 h1 h
    rcases hne with hne | hne
    · exact hne a.symm
    · exact hne b.symm
  unfold MemcachedStore.Set
  cases rt.gobEncode v with
  | error err => rfl
  | ok buf => exact Memcached.lookup_store_ne c _ _ _ hk

/-- Witness of C10 at the identifiers `a1` and `a2`. -/
theorem C10_composite_key_separates_witness :
    (compositeKey "a1" "cart" = compositeKey "a2" "cart" → "a1" = "a2" ∧ "cart" = "cart") ∧
    (∀ (rt : Runtime GobStream) (TTL : Duration) (ctx : Context) (v : GoValue)
      (c : Memcached GobStream), ("a1" ≠ "a2" ∨ "cart" ≠ "cart") →
      ((MemcachedStore.Set rt { Client := Memcached.client, TTL := TTL } ctx "a1" "cart" v c).2).lookup
          (compositeKey "a2" "cart") = c.lookup (compositeKey "a2" "cart")) ∧
    (∀ s k : String, compositeKey s k ≠ s) :=
  C10_composite_key_separates "a1" "a2" "cart" "cart" (by decide) (by decide)

/-- C3, counterexample: on the empty cache, after the one call Set for the session id
`a:b` and the key `c`, Get for the session id `a` and the key `b:c`, a pair for which Set
was never called, returns the value with a nil error and not ErrCacheMiss. -/
theorem C3_never_set_counterexample :
    (("a:b", "c") : String × String) ≠ ("a", "b:c") ∧
    (MemcachedStore.Get goRuntime { Client := Memcached.client, TTL := 3600 * Second } {}
        "a" "b:c"
        (MemcachedStore.run goRuntime { Client := Memcached.client, TTL := 3600 * Second } {}
          [CacheEvent.Set "a:b" "c" (GoValue.ifacePtr (Basic.string "v"))]
          (Memcached.empty 0))).1 =
      (GoValue.val (Basic.string "v"), none) := by
  constructor
  · decide
  · unfold MemcachedStore.run MemcachedStore.run
    rw [MemcachedStore.Set_client_hour {} "a:b" "c" (GoValue.ifacePtr (Basic.string "v"))
      { wireType := WireType.interface, payload := Basic.string "v" } rfl,
      MemcachedStore.Get_client]
    have hk : "a" ++ ":" ++ "b:c" = "a:b" ++ ":" ++ "c" := by decide
    rw [hk, Memcached.lookup_store_self]
    simp [Memcached.live, Memcached.empty, goRuntime, gobDecode]

/-- C3, amended: when the cache holds no live entry under the composite key of a session id
and key, Get returns the nil value with the error ErrCacheMiss and leaves the cache as it
was.  So does every Get on the empty cache, and so does a Get for a session id without a
colon after any history, from the empty cache, of Set, Get and Delete calls and of waits in
which every Set is for a session id without a colon and for another pair of session id and
key.  Over any client, a miss reported for the composite key is what Get returns, with the
nil value. -/
theorem C3_get_absent_is_cache_miss (rt : Runtime β) (TTL : Duration) (ctx : Context)
    (sessionID key : String) (c : Memcached β)
    (h : c.lookup (compositeKey sessionID key) = none) :
    MemcachedStore.Get rt { Client := Memcached.client, TTL := TTL } ctx sessionID key c =
        ((GoValue.nil, some GoError.ErrCacheMiss), c) ∧
    (∀ (id k : String) (now : Int),
      MemcachedStore.Get rt { Client := Memcached.client, TTL := TTL } ctx id k
          (Memcached.empty now) =
        ((GoValue.nil, some GoError.ErrCacheMiss), Memcached.empty now)) ∧
    (∀ (history : List CacheEvent) (now : Int), ':' ∉ sessionID.data →
      (∀ id k v, CacheEvent.Set id k v ∈ history →
        ':' ∉ id.data ∧ (id ≠ sessionID ∨ k ≠ key)) →
      MemcachedStore.Get rt { Client := Memcached.client, TTL := TTL } ctx sessionID key
          (MemcachedStore.run rt { Client := Memcached.client, TTL := TTL } ctx history
            (Memcached.empty now)) =
        ((GoValue.nil, some GoError.ErrCacheMiss),
          MemcachedStore.run rt { Client := Memcached.client, TTL := TTL } ctx history
            (Memcached.empty now))) ∧
    (∀ (m : MemcachedStore β σ) (id k : String) (st st1 : σ),
      m.Client.Get (compositeKey id k) st = (.error GoError.ErrCacheMiss, st1) →
      m.Get rt ctx id k st = ((GoValue.nil, some GoError.ErrCacheMiss), st1)) := by
  refine ⟨?_, ?_, ?_, ?_⟩
  · rw [MemcachedStore.Get_client, h]
  · intro id k now
    rw [MemcachedStore.Get_client]
    rfl
  · intro history now hsid hsets
    have hnone := MemcachedStore.run_entries_none rt TTL ctx (sessionID ++ ":" ++ key) history
      (Memcached.empty now) rfl (by
        intro id k v hm e
        obtain ⟨hid, hne⟩ := hsets id k v hm
        obtain ⟨a, b⟩ := compositeKey_inj id sessionID k key hid hsid e
        rcases hne with hne | hne
        · exact hne a
        · exact hne b)
    rw [MemcachedStore.Get_client]
    simp [Memcached.lookup, hnone]
  · intro m id k st st1 hm
    unfold MemcachedStore.Get
    rw [hm]

/-- Witness of the amended C3 on the empty cache. -/
theorem C3_get_absent_is_cache_miss_witness :
    MemcachedStore.Get goRuntime { Client := Memcached.client, TTL := 3600 * Second } {} "s" "k"
        (Memcached.empty 0) =
        ((GoValue.nil, some GoError.ErrCacheMiss), Memcached.empty 0) ∧
    (∀ (id k : String) (now : Int),
      MemcachedStore.Get goRuntime { Client := Memcached.client, TTL := 3600 * Second } {} id k
          (Memcached.empty now) =
        ((GoValue.nil, some GoError.ErrCacheMiss), Memcached.empty now)) ∧
    (∀ (history : List CacheEvent) (now : Int), ':' ∉ ("s" : String).data →
      (∀ id k v, CacheEvent.Set id k v ∈ history → ':' ∉ id.data ∧ (id ≠ "s" ∨ k ≠ "k")) →
      MemcachedStore.Get goRuntime { Client := Memcached.client, TTL := 3600 * Second } {} "s" "k"
          (MemcachedStore.run goRuntime { Client := Memcached.client, TTL := 3600 * Second } {}
            history (Memcached.empty now)) =
        ((GoValue.nil, some GoError.ErrCacheMiss),
          MemcachedStore.run goRuntime { Client := Memcached.client, TTL := 3600 * Second } {}
            history (Memcached.empty now))) ∧
    (∀ (m : MemcachedStore GobStream (List (ClientCall GobStream))) (id k : String)
      (st st1 : List (ClientCall GobStream)),
      m.Client.Get (compositeKey id k) st = (.error GoError.ErrCacheMiss, st1) →
      m.Get goRuntime {} id k st = ((GoValue.nil, some GoError.ErrCacheMiss), st1)) :=
  C3_get_absent_is_cache_miss goRuntime (3600 * Second) {} "s" "k" (Memcached.empty 0) rfl

/-- C5, counterexample: after Set of the string `hello` for the session `s` and the key `k`
and Delete of the session `s`, Get for `s` and `k` does not succeed: it returns the nil
value and the error of gob. -/
theorem C5_get_after_delete_counterexample :
    (MemcachedStore.Get goRuntime { Client := Memcached.client, TTL := 3600 * Second } {}
        "s" "k"
        (MemcachedStore.run goRuntime { Client := Memcached.client, TTL := 3600 * Second } {}
          [CacheEvent.Set "s" "k" (GoValue.val (Basic.string "hello")), CacheEvent.Delete "s"]
          (Memcached.empty 0))).1 =
      (GoValue.nil, some (GoError.gob
        "gob: local interface type *interface \x7b\x7d can only be decoded from remote interface type; received concrete type string")) ∧
    (some (GoError.gob
        "gob: local interface type *interface \x7b\x7d can only be decoded from remote interface type; received concrete type string") :
      Option GoError) ≠ none := by
  constructor
  · unfold MemcachedStore.run MemcachedStore.run MemcachedStore.run
    rw [MemcachedStore.Set_client_hour {} "s" "k" (GoValue.val (Basic.string "hello"))
      { wireType := WireType.string, payload := Basic.string "hello" } rfl]
    obtain ⟨_, _, h3, _⟩ := Memcached.delete_frame
      ((Memcached.empty 0 : Memcached GobStream).store ("s" ++ ":" ++ "k")
        { Value := { wireType := WireType.string, payload := Basic.string "hello" },
          expiry := some ((Memcached.empty 0 : Memcached GobStream).now + 3600) }) "s"
    unfold MemcachedStore.Delete
    rw [MemcachedStore.Get_client, h3 _ (compositeKey_ne_self "s" "k"),
      Memcached.lookup_store_self]
    simp [Memcached.live, Memcached.empty, goRuntime, gobDecode, WireType.name]
  · simp

/-- C5, amended: on the cache, Delete of a session id removes the entry whose key is that id
and leaves every other entry and the clock as they were.  The results of Get for the session
are those from before the Delete, and an entry written by Set under the composite key of the
session is still there after the Delete.  Over a client that records its calls, Delete is
the one call that deletes the key equal to the session id. -/
theorem C5_delete_leaves_session_entries (rt : Runtime β) (TTL : Duration) (ctx : Context)
    (sessionID : String) (c : Memcached β) :
    let m : MemcachedStore β (Memcached β) := { Client := Memcached.client, TTL := TTL }
    ((m.Delete ctx sessionID c).2).lookup sessionID = none ∧
    (∀ k, k ≠ sessionID → ((m.Delete ctx sessionID c).2).entries k = c.entries k) ∧
    ((m.Delete ctx sessionID c).2).now = c.now ∧
    (∀ key, (m.Get rt ctx sessionID key (m.Delete ctx sessionID c).2).1 =
      (m.Get rt ctx sessionID key c).1) ∧
    (∀ key v buf, rt.gobEncode v = .ok buf →
      ((m.Delete ctx sessionID (m.Set rt ctx sessionID key v c).2).2).entries
          (compositeKey sessionID key) =
        some { Value := buf, expiry := c.expiryOf (rt.int32 (Duration.Seconds TTL)) } ∧
      (m.Get rt ctx sessionID key (m.Delete ctx sessionID (m.Set rt ctx sessionID key v c).2).2).1 =
        (m.Get rt ctx sessionID key (m.Set rt ctx sessionID key v c).2).1) ∧
    (∀ (setErr deleteErr : Option GoError) (log : List (ClientCall β)),
      MemcachedStore.Delete { Client := recordingClient setErr deleteErr, TTL := TTL } ctx
          sessionID log =
        (deleteErr, log ++ [ClientCall.Delete sessionID])) := by
  intro m
  have hget : ∀ (d : Memcached β) (key : String),
      (m.Get rt ctx sessionID key (m.Delete ctx sessionID d).2).1 =
        (m.Get rt ctx sessionID key d).1 := by
    intro d key
    obtain ⟨_, _, h3, _⟩ := Memcached.delete_frame d sessionID
    show (MemcachedStore.Get rt { Client := Memcached.client, TTL := TTL } ctx sessionID key
        ((Memcached.client.Delete sessionID d).2)).1 = _
    rw [MemcachedStore.Get_client, MemcachedStore.Get_client,
      h3 _ (compositeKey_ne_self sessionID key)]
  obtain ⟨h1, h2, _, h4⟩ := Memcached.delete_frame c sessionID
  refine ⟨h1, h2, h4, hget c, ?_, fun _ _ _ => rfl⟩
  intro key v buf henc
  refine ⟨?_, hget _ key⟩
  obtain ⟨_, g2, _, _⟩ := Memcached.delete_frame (m.Set rt ctx sessionID key v c).2 sessionID
  show ((Memcached.client.Delete sessionID (m.Set rt ctx sessionID key v c).2).2).entries _ = _
  rw [g2 _ (compositeKey_ne_self sessionID key)]
  show ((MemcachedStore.Set rt { Client := Memcached.client, TTL := TTL } ctx sessionID key v
    c).2).entries _ = _
  unfold MemcachedStore.Set
  rw [henc]
  simp [Memcached.client, Memcached.store]

/-- C6, counterexample: with the configured cookie name `bad name`, which is not a token,
DestroySession writes no cookie to the response. -/
theorem C6_invalid_name_counterexample :
    (SessionManager.DestroySession
        { Store := recordingStore none, CookieKey := "bad name", TTL := 3600 * Second }
        1700000000000000000 { cookies := [] } { ctx := {}, Cookies := [] } []).1 =
      { cookies := [] } := by
  decide

/-- C6, amended: when the configured cookie name is a valid cookie name, DestroySession
adds to the response one cookie, with that name, the empty value, the path `/`, HttpOnly
and Secure set, expiring one hour before the current time, which is in the past; when the
name is not valid the response is left as it was.  Both hold for every store, whatever its
Delete returns. -/
theorem C6_destroy_session_expires_cookie (s : SessionManager σ) (now : Time)
    (w : ResponseWriter) (r : Request) (st : σ) :
    (isCookieNameValid s.CookieKey = true →
      (s.DestroySession now w r st).1 =
        { cookies := w.cookies ++
            [{ Name := s.CookieKey, Value := "", Path := "/", HttpOnly := true, Secure := true,
               Expires := now - 3600000000000 }] }) ∧
    (isCookieNameValid s.CookieKey = false → (s.DestroySession now w r st).1 = w) ∧
    now - 3600000000000 < now := by
  refine ⟨?_, ?_, ?_⟩
  · intro hv
    unfold SessionManager.DestroySession SetCookie Time.Add Hour Second
    simp only [hv, if_true]
    rfl
  · intro hv
    unfold SessionManager.DestroySession SetCookie
    simp only [hv]
    rfl
  · have h : ∀ n : Int, n - 3600000000000 < n := fun n => by omega
    exact h now

/-- Witness of the amended C6 at the cookie name `session_id`, for a store whose Delete
fails. -/
theorem C6_destroy_session_expires_cookie_witness :
    (SessionManager.DestroySession
        { Store := recordingStore (some (GoError.backend "connection refused")),
          CookieKey := "session_id", TTL := 3600 * Second }
        1700000000000000000 { cookies := [] }
        { ctx := {},
          Cookies :=
            [{ Name := "session_id", Value := "abc", Path := "", HttpOnly := false,
               Secure := false, Expires := 0 }] } []).1 =
      { cookies :=
          [{ Name := "session_id", Value := "", Path := "/", HttpOnly := true, Secure := true,
             Expires := 1700000000000000000 - 3600000000000 }] } :=
  (C6_destroy_session_expires_cookie
    { Store := recordingStore (some (GoError.backend "connection refused")),
      CookieKey := "session_id", TTL := 3600 * Second }
    1700000000000000000 { cookies := [] }
    { ctx := {},
      Cookies :=
        [{ Name := "session_id", Value := "abc", Path := "", HttpOnly := false,
           Secure := false, Expires := 0 }] } []).1 (by decide)

/-- C7, counterexample: with the empty configured cookie name, NewSession returns an
identifier and writes no cookie to the response. -/
theorem C7_empty_name_counterexample :
    SessionManager.NewSession
        { Store := recordingStore none, CookieKey := "", TTL := 3600 * Second }
        "123e4567-e89b-42d3-a456-426614174000" 1700000000000000000 { cookies := [] } [] =
      ("123e4567-e89b-42d3-a456-426614174000", { cookies := [] }, []) := by
  decide

/-- C7, amended: NewSession returns the identifier drawn from the UUID source and leaves the
store as it was: a store that records its calls records none.  When the configured cookie
name is a valid cookie name it adds to the response one cookie with that name, the
identifier as its value, the path `/`, HttpOnly and Secure set, expiring at the current
time plus the TTL; when the name is not valid the response is left as it was. -/
theorem C7_new_session_sets_cookie (s : SessionManager σ) (uuid : String) (now : Time)
    (w : ResponseWriter) (st : σ) :
    (isCookieNameValid s.CookieKey = true →
      s.NewSession uuid now w st =
        (uuid,
          { cookies := w.cookies ++
              [{ Name := s.CookieKey, Value := uuid, Path := "/", HttpOnly := true,
                 Secure := true, Expires := now + s.TTL }] },
          st)) ∧
    (isCookieNameValid s.CookieKey = false → s.NewSession uuid now w st = (uuid, w, st)) ∧
    (∀ (err : Option GoError) (name : String) (ttl : Duration) (log : List StoreCall),
      (SessionManager.NewSession { Store := recordingStore err, CookieKey := name, TTL := ttl }
        uuid now w log).2.2 = log) := by
  refine ⟨?_, ?_, ?_⟩
  · intro hv
    unfold SessionManager.NewSession SetCookie Time.Add
    simp only [hv, if_true]
  · intro hv
    unfold SessionManager.NewSession SetCookie
    simp only [hv]
    rfl
  · intro err name ttl log
    rfl

/-- Witness of the amended C7 at the cookie name `session_id`. -/
theorem C7_new_session_sets_cookie_witness :
    SessionManager.NewSession
        { Store := recordingStore none, CookieKey := "session_id", TTL := 3600 * Second }
        "123e4567-e89b-42d3-a456-426614174000" 1700000000000000000 { cookies := [] } [] =
      ("123e4567-e89b-42d3-a456-426614174000",
        { cookies :=
            [{ Name := "session_id", Value := "123e4567-e89b-42d3-a456-426614174000",
               Path := "/", HttpOnly := true, Secure := true,
               Expires := 1700000000000000000 + 3600 * Second }] },
        []) :=
  (C7_new_session_sets_cookie
    { Store := recordingStore none, CookieKey := "session_id", TTL := 3600 * Second }
    "123e4567-e89b-42d3-a456-426614174000" 1700000000000000000 { cookies := [] } []).1
    (by decide)

/-- C8: GetSession returns the empty identifier and ErrNoCookie when the request has no
cookie of the configured name, and otherwise the value of the first such cookie and a nil
error. -/
theorem C8_get_session_reads_cookie (s : SessionManager σ) (r : Request) :
    ((∀ c ∈ r.Cookies, c.Name ≠ s.CookieKey) →
      s.GetSession r = ("", some GoError.ErrNoCookie)) ∧
    ((∃ c ∈ r.Cookies, c.Name = s.CookieKey) →
      ∃ c ∈ r.Cookies, c.Name = s.CookieKey ∧
        r.Cookies.find? (fun c => c.Name = s.CookieKey) = some c ∧
        s.GetSession r = (c.Value, none)) := by
  constructor
  · intro h
    have hf : r.Cookies.find? (fun c => c.Name = s.CookieKey) = none := by
      rw [List.find?_eq_none]
      intro c hc
      simpa using h c hc
    unfold SessionManager.GetSession Request.Cookie
    rw [hf]
  · rintro ⟨c, hc, hn⟩
    cases hf : r.Cookies.find? (fun c => c.Name = s.CookieKey) with
    | none =>
      rw [List.find?_eq_none] at hf
      exact absurd hn (by simpa using hf c hc)
    | some d =>
      refine ⟨d, List.mem_of_find?_eq_some hf, by simpa using List.find?_some hf, rfl, ?_⟩
      unfold SessionManager.GetSession Request.Cookie
      rw [hf]

/-- C9: DestroySession leaves the store as it was when the request has no session cookie,
and otherwise leaves it as one call of Delete with the value of the session cookie leaves
it; a store that records its calls records no call in the first case and that one Delete in
the second. -/
theorem C9_destroy_session_deletes_once (s : SessionManager σ) (now : Time)
    (w : ResponseWriter) (r : Request) (st : σ) :
    ((∀ c ∈ r.Cookies, c.Name ≠ s.CookieKey) → (s.DestroySession now w r st).2 = st) ∧
    (∀ c, r.Cookies.find? (fun c => c.Name = s.CookieKey) = some c →
      (s.DestroySession now w r st).2 = (s.Store.Delete r.Context c.Value st).2) ∧
    (∀ (err : Option GoError) (ttl : Duration) (log : List StoreCall),
      (SessionManager.DestroySession
        { Store := recordingStore err, CookieKey := s.CookieKey, TTL := ttl } now w r log).2 =
        log ++ (match r.Cookies.find? (fun c => c.Name = s.CookieKey) with
          | some c => [StoreCall.Delete c.Value]
          | none => [])) := by
  refine ⟨?_, ?_, ?_⟩
  · intro h
    have hf : r.Cookies.find? (fun c => c.Name = s.CookieKey) = none := by
      rw [List.find?_eq_none]
      intro c hc
      simpa using h c hc
    unfold SessionManager.DestroySession SessionManager.GetSession Request.Cookie
    rw [hf]
    rfl
  · intro c hf
    unfold SessionManager.DestroySession SessionManager.GetSession Request.Cookie
    rw [hf]
    rfl
  · intro err ttl log
    unfold SessionManager.DestroySession SessionManager.GetSession Request.Cookie
    cases hf : r.Cookies.find? (fun c => c.Name = s.CookieKey) with
    | none => simp
    | some c => simp [recordingStore]

/-- C1: Set followed by Get does not return the value.  With the gob model, on the
cache and with a TTL of one hour, Set of a value of a basic type succeeds and stores its
encoding, and the Get that follows returns the nil value and the error of gob for a
concrete wire type met by a local interface type. -/
theorem C1_set_then_get_fails_to_decode (b : Basic) (sessionID key : String)
    (c : Memcached GobStream) :
    let m : MemcachedStore GobStream (Memcached GobStream) :=
      { Client := Memcached.client, TTL := 3600 * Second }
    (m.Set goRuntime {} sessionID key (GoValue.val b) c).1 = none ∧
    ((m.Set goRuntime {} sessionID key (GoValue.val b) c).2).lookup (compositeKey sessionID key) =
      some { Value := { wireType := b.wireType, payload := b }, expiry := some (c.now + 3600) } ∧
    (m.Get goRuntime {} sessionID key (m.Set goRuntime {} sessionID key (GoValue.val b) c).2).1 =
      (GoValue.nil, some (GoError.gob
        ("gob: local interface type *interface \x7b\x7d can only be decoded from remote interface type; received concrete type "
          ++ b.wireType.name))) := by
  intro m
  have hexp : goRuntime.int32 (Duration.Seconds (3600 * Second)) = 3600 := by
    rw [int32_Seconds goRuntime (3600 * Second) (by unfold Second; norm_num [abs_of_nonneg])]
    decide
  have hset : m.Set goRuntime {} sessionID key (GoValue.val b) c =
      (none, c.store (sessionID ++ ":" ++ key)
        { Value := { wireType := b.wireType, payload := b }, expiry := some (c.now + 3600) }) := by
    show MemcachedStore.Set goRuntime { Client := Memcached.client, TTL := 3600 * Second } {}
      sessionID key (GoValue.val b) c = _
    unfold MemcachedStore.Set
    simp only [goRuntime, gobEncode] at hexp ⊢
    rw [hexp]
    simp [Memcached.client, Memcached.expiryOf]
  have hlook : (c.store (sessionID ++ ":" ++ key)
        { Value := { wireType := b.wireType, payload := b },
          expiry := some (c.now + 3600) }).lookup (sessionID ++ ":" ++ key) =
      some { Value := { wireType := b.wireType, payload := b }, expiry := some (c.now + 3600) } := by
    rw [Memcached.lookup_store_self]
    simp [Memcached.live]
  have hw : b.wireType ≠ WireType.interface := by cases b <;> simp [Basic.wireType]
  refine ⟨by rw [hset], by rw [hset]; exact hlook, ?_⟩
  rw [hset]
  show (MemcachedStore.Get goRuntime { Client := Memcached.client, TTL := 3600 * Second } {}
    sessionID key _).1 = _
  rw [MemcachedStore.Get_client, hlook]
  simp [goRuntime, gobDecode, hw]

/-- C2, counterexample: with a TTL of `16777216.999999999s` the one item that Set writes
has the expiration `16777217`, which is not the TTL in nanoseconds divided by `10 ^ 9`. -/
theorem C2_expiration_counterexample :
    (MemcachedStore.Set goRuntime
        { Client := recordingClient none none, TTL := 16777216999999999 } {} "s" "k"
        (GoValue.val (Basic.string "v")) []).2 =
      [ClientCall.Set
        { Key := "s:k", Value := { wireType := WireType.string, payload := Basic.string "v" },
          Expiration := 16777217 }] ∧
    (16777217 : Int) ≠ 16777216999999999 / 1000000000 := by
  constructor
  · unfold MemcachedStore.Set
    have h := int32_Seconds_example goRuntime
    simp only [goRuntime, gobEncode] at h ⊢
    rw [h]
    rfl
  · decide

/-- C2, amended: for a value that encodes and a TTL below `2 ^ 24` seconds in absolute
value, Set is one write on the client, of the item whose key is the session id, a colon
and the key, whose value is the encoding and whose expiration is the TTL in nanoseconds
divided by `10 ^ 9` and truncated towards zero; Set returns what that write returns, and a
client that records its calls records that one write. -/
theorem C2_set_is_one_write (rt : Runtime β) (m : MemcachedStore β σ) (ctx : Context)
    (sessionID key : String) (value : GoValue) (buf : β) (st : σ)
    (henc : rt.gobEncode value = .ok buf) (httl : |m.TTL| < 16777216 * Second) :
    m.Set rt ctx sessionID key value st =
      m.Client.Set
        { Key := sessionID ++ ":" ++ key, Value := buf,
          Expiration := Int.tdiv m.TTL 1000000000 } st ∧
    (∀ (setErr deleteErr : Option GoError) (log : List (ClientCall β)),
      MemcachedStore.Set rt { Client := recordingClient setErr deleteErr, TTL := m.TTL } ctx
          sessionID key value log =
        (setErr, log ++ [ClientCall.Set
          { Key := sessionID ++ ":" ++ key, Value := buf,
            Expiration := Int.tdiv m.TTL 1000000000 }])) := by
  have hexp : rt.int32 (Duration.Seconds m.TTL) = Int.tdiv m.TTL 1000000000 :=
    int32_Seconds rt m.TTL httl
  constructor
  · unfold MemcachedStore.Set
    rw [henc, hexp]
  · intro setErr deleteErr log
    unfold MemcachedStore.Set
    simp only [henc, hexp]
    rfl

/-- Witness of the amended C2 at a TTL of ninety seconds and a half. -/
theorem C2_set_is_one_write_witness :
    MemcachedStore.Set goRuntime
        ({ Client := Memcached.client, TTL := 90500000000 } :
          MemcachedStore GobStream (Memcached GobStream)) {} "s" "k"
        (GoValue.val (Basic.string "v")) (Memcached.empty 0) =
      Memcached.client.Set
        { Key := "s" ++ ":" ++ "k",
          Value := { wireType := WireType.string, payload := Basic.string "v" },
          Expiration := Int.tdiv 90500000000 1000000000 } (Memcached.empty 0) ∧
    (∀ (setErr deleteErr : Option GoError) (log : List (ClientCall GobStream)),
      MemcachedStore.Set goRuntime
          { Client := recordingClient setErr deleteErr, TTL := 90500000000 } {} "s" "k"
          (GoValue.val (Basic.string "v")) log =
        (setErr, log ++ [ClientCall.Set
          { Key := "s" ++ ":" ++ "k",
            Value := { wireType := WireType.string, payload := Basic.string "v" },
            Expiration := Int.tdiv 90500000000 1000000000 }])) :=
  C2_set_is_one_write goRuntime { Client := Memcached.client, TTL := 90500000000 } {} "s" "k"
    (GoValue.val (Basic.string "v")) { wireType := WireType.string, payload := Basic.string "v" }
    (Memcached.empty 0) rfl (by decide)

/-- C4: with a TTL of zero or below one second the value written by Set does not expire.
Set passes the expiration zero to the client, the cache keeps the entry without an
expiry, and however much time passes a later Get for the same session id and key finds
it: for a value that gob decodes, Get returns it with a nil error, not ErrCacheMiss. -/
theorem C4_short_ttl_entry_never_expires (TTL : Duration) (h0 : 0 ≤ TTL) (h1 : TTL < Second)
    (b : Basic) (sessionID key : String) (c : Memcached GobStream) (elapsed : Int) :
    let m : MemcachedStore GobStream (Memcached GobStream) :=
      { Client := Memcached.client, TTL := TTL }
    (MemcachedStore.Set goRuntime { Client := recordingClient none none, TTL := TTL } {}
        sessionID key (GoValue.ifacePtr b) []).2 =
      [ClientCall.Set
        { Key := sessionID ++ ":" ++ key,
          Value := { wireType := WireType.interface, payload := b }, Expiration := 0 }] ∧
    ((m.Set goRuntime {} sessionID key (GoValue.ifacePtr b) c).2).entries
        (compositeKey sessionID key) =
      some { Value := { wireType := WireType.interface, payload := b }, expiry := none } ∧
    (m.Get goRuntime {} sessionID key
        ((m.Set goRuntime {} sessionID key (GoValue.ifacePtr b) c).2.advance elapsed)).1 =
      (GoValue.val b, none) := by
  intro m
  have hexp : goRuntime.int32 (Duration.Seconds TTL) = 0 := by
    have hlt : |TTL| < 16777216 * Second := by
      have h2 : ∀ t : Int, 0 ≤ t → t < Second → |t| < 16777216 * Second := by
        intro t a b
        rw [abs_of_nonneg a]
        unfold Second at *
        omega
      exact h2 TTL h0 h1
    rw [int32_Seconds goRuntime TTL hlt]
    have h3 : ∀ t : Int, 0 ≤ t → t < Second → t.tdiv Second = 0 := by
      intro t a b
      exact Int.tdiv_eq_zero_of_lt a b
    exact h3 TTL h0 h1
  have hset : m.Set goRuntime {} sessionID key (GoValue.ifacePtr b) c =
      (none, c.store (sessionID ++ ":" ++ key)
        { Value := { wireType := WireType.interface, payload := b }, expiry := none }) := by
    show MemcachedStore.Set goRuntime { Client := Memcached.client, TTL := TTL } {}
      sessionID key (GoValue.ifacePtr b) c = _
    unfold MemcachedStore.Set
    simp only [goRuntime, gobEncode] at hexp ⊢
    rw [hexp]
    simp [Memcached.client, Memcached.expiryOf]
  refine ⟨?_, ?_, ?_⟩
  · unfold MemcachedStore.Set
    simp only [goRuntime, gobEncode] at hexp ⊢
    rw [hexp]
    rfl
  · rw [hset]
    simp [Memcached.store]
  · rw [hset]
    show (MemcachedStore.Get goRuntime { Client := Memcached.client, TTL := TTL } {}
      sessionID key _).1 = _
    rw [MemcachedStore.Get_client]
    simp [Memcached.lookup, Memcached.advance, Memcached.store, Memcached.live, goRuntime,
      gobDecode]

/-- Witness of C4 at a TTL of half a second, read one hour later. -/
theorem C4_short_ttl_entry_never_expires_witness :
    let m : MemcachedStore GobStream (Memcached GobStream) :=
      { Client := Memcached.client, TTL := 500000000 }
    (MemcachedStore.Set goRuntime { Client := recordingClient none none, TTL := 500000000 } {}
        "s" "k" (GoValue.ifacePtr (Basic.string "v")) []).2 =
      [ClientCall.Set
        { Key := "s" ++ ":" ++ "k",
          Value := { wireType := WireType.interface, payload := Basic.string "v" },
          Expiration := 0 }] ∧
    ((m.Set goRuntime {} "s" "k" (GoValue.ifacePtr (Basic.string "v")) (Memcached.empty 0)).2).entries
        (compositeKey "s" "k") =
      some { Value := { wireType := WireType.interface, payload := Basic.string "v" },
             expiry := none } ∧
    (m.Get goRuntime {} "s" "k"
        ((m.Set goRuntime {} "s" "k" (GoValue.ifacePtr (Basic.string "v"))
          (Memcached.empty 0)).2.advance 3600)).1 =
      (GoValue.val (Basic.string "v"), none) :=
  C4_short_ttl_entry_never_expires 500000000 (by decide) (by decide) (Basic.string "v") "s" "k"
    (Memcached.empty 0) 3600

end Sessions
